import Mathlib

/-!
Shallow embedding of the s3-unzipper pipeline (TypeScript sources) in Lean 4.

Strings are modelled as `List Char` (`Str`).  Each definition mirrors one
function of the source; the JavaScript regular-expression replaces used by
`sanitizeFilename` and friends are implemented as structurally recursive
list transformations with the same left-to-right, non-overlapping matching
semantics as the source regexes.
-/

namespace S3Unzipper

/-- Strings of the modelled program: sequences of characters. -/
abbrev Str := List Char

/-- Converts a Lean string literal into the model's character-list form. -/
def chars (s : String) : Str := s.toList

/-- JavaScript `\s` whitespace class (the code points relevant to
`String.prototype.trim` and the `/\s+/g` replace in `sanitizeFilename`). -/
def isJsSpace (c : Char) : Bool :=
  c = ' ' || c = '\t' || c = '\n' || c = '\r' ||
  c = Char.ofNat 0x0b || c = Char.ofNat 0x0c ||
  c = Char.ofNat 0xa0 || c = Char.ofNat 0x1680 ||
  (0x2000 ≤ c.toNat && c.toNat ≤ 0x200a) ||
  c = Char.ofNat 0x2028 || c = Char.ofNat 0x2029 ||
  c = Char.ofNat 0x202f || c = Char.ofNat 0x205f ||
  c = Char.ofNat 0x3000 || c = Char.ofNat 0xfeff

/-- Control characters of the `[\x00-\x1f\x7f-\x9f]` class used by
`sanitizeFilename` and `isValidS3PathComponent` (src/src/utils/validation.ts). -/
def isCtrlChar (c : Char) : Bool :=
  c.toNat ≤ 0x1f || (0x7f ≤ c.toNat && c.toNat ≤ 0x9f)

/-- The `[<>:"|?*]` reserved-character class of `sanitizeFilename`. -/
def isReservedChar (c : Char) : Bool :=
  c = '<' || c = '>' || c = ':' || c = '"' || c = '|' || c = '?' || c = '*'

/-- JavaScript `String.prototype.trim`: strip leading and trailing `\s`. -/
def trimJs (s : Str) : Str :=
  ((s.dropWhile isJsSpace).reverse.dropWhile isJsSpace).reverse

/-- `replace(/\.\./g, '_')`: left-to-right, non-overlapping replacement of
every `".."` by one `'_'`. -/
def replaceDotDot : Str → Str
  | [] => []
  | [c] => [c]
  | c1 :: c2 :: cs =>
    if c1 = '.' ∧ c2 = '.' then '_' :: replaceDotDot cs
    else c1 :: replaceDotDot (c2 :: cs)

/-- Helper for `replace(/\s+/g, '_')`: the flag records whether the previous
character belonged to a whitespace run that has already emitted its `'_'`. -/
def collapseWsAux : Bool → Str → Str
  | _, [] => []
  | inRun, c :: cs =>
    if isJsSpace c then
      if inRun then collapseWsAux true cs
      else '_' :: collapseWsAux true cs
    else c :: collapseWsAux false cs

/-- `replace(/\s+/g, '_')`: each maximal whitespace run becomes one `'_'`. -/
def collapseWs (s : Str) : Str := collapseWsAux false s

/-- A run of `n` underscores as re-emitted by `replace(/_{4,}/g, '___')`:
runs of four or more collapse to exactly three, shorter runs are kept. -/
def emitUnderscoreRun (n : Nat) : Str :=
  List.replicate (if 4 ≤ n then 3 else n) '_'

/-- Helper for `replace(/_{4,}/g, '___')`; `pending` counts the underscores
of the current run that have been consumed but not yet emitted. -/
def squeezeUnderscoresAux : Nat → Str → Str
  | pending, [] => emitUnderscoreRun pending
  | pending, c :: cs =>
    if c = '_' then squeezeUnderscoresAux (pending + 1) cs
    else emitUnderscoreRun pending ++ c :: squeezeUnderscoresAux 0 cs

/-- `replace(/_{4,}/g, '___')` on the whole string. -/
def squeezeUnderscores (s : Str) : Str := squeezeUnderscoresAux 0 s

/-- `replace(/^_+|_+$/g, '')`: strip the leading and the trailing underscore
run. -/
def trimUnderscores (s : Str) : Str :=
  ((s.dropWhile (· = '_')).reverse.dropWhile (· = '_')).reverse

/-- The chained replaces of `sanitizeFilename` (validation.ts lines 144-158),
in source order: control characters to `'_'`, reserved characters to `'_'`,
`".."` to `'_'`, strip leading dots, whitespace runs to `'_'`, squeeze
underscore runs of four or more to three, strip the leading and trailing
underscore runs. -/
def sanitizeSteps (s : Str) : Str :=
  trimUnderscores (squeezeUnderscores (collapseWs
    ((replaceDotDot ((s.map (fun c => if isCtrlChar c then '_' else c)).map
      (fun c => if isReservedChar c then '_' else c))).dropWhile (· = '.'))))

/-- Lines 161-163 of `sanitizeFilename`: the `'unknown'` fallback for an
empty or single-dot result. -/
def sanitizeFallback (s : Str) : Str :=
  if s = [] ∨ s = ['.'] then chars "unknown" else s

/-- Lines 166-168 of `sanitizeFilename`: cap the result at 100 characters. -/
def sanitizeTruncate (s : Str) : Str :=
  if 100 < s.length then s.take 100 else s

/-- `sanitizeFilename` of src/src/utils/validation.ts (lines 139-171): the
guard for empty input, the chained character replaces, the `'unknown'`
fallback and the length cap. -/
def sanitizeFilename (filename : Str) : Str :=
  if filename = [] ∨ trimJs filename = [] then chars "unknown"
  else sanitizeTruncate (sanitizeFallback (sanitizeSteps filename))

/-- `isValidS3PathComponent` of src/src/utils/validation.ts (lines 176-193):
rejects empty/whitespace-only strings and the six dangerous patterns. -/
def isValidS3PathComponent (component : Str) : Bool :=
  if component = [] ∨ trimJs component = [] then false
  else
    !(component.any isCtrlChar) &&
    !(hasDotDot component) &&
    !(component ≠ [] && component.all (· = '.')) &&
    !(component.head? = some '/') &&
    !(hasDoubleSlash component) &&
    !(component.any isReservedChar)
where
  /-- `/\.\./.test`: some two adjacent characters are both dots. -/
  hasDotDot : Str → Bool
    | [] => false
    | [_] => false
    | c1 :: c2 :: cs => (c1 = '.' && c2 = '.') || hasDotDot (c2 :: cs)
  /-- `/\/\/+/.test`: some two adjacent characters are both slashes. -/
  hasDoubleSlash : Str → Bool
    | [] => false
    | [_] => false
    | c1 :: c2 :: cs => (c1 = '/' && c2 = '/') || hasDoubleSlash (c2 :: cs)

/-- JavaScript `String.prototype.split` with a single-character separator. -/
def splitOnChar (sep : Char) : Str → List Str
  | [] => [[]]
  | c :: cs =>
    if c = sep then [] :: splitOnChar sep cs
    else
      match splitOnChar sep cs with
      | r :: rs => (c :: r) :: rs
      | [] => [[c]]

/-- `filename.split('/').pop() || filename` of `parseFilename`: the last
slash-separated component, or the whole filename when that component is the
empty (falsy) string. -/
def justFilenameOf (filename : Str) : Str :=
  match (splitOnChar '/' filename).getLast? with
  | some l => if l = [] then filename else l
  | none => filename

/-- `String.prototype.lastIndexOf('.')` as an optional index. -/
def lastDotIdx : Str → Option Nat
  | [] => none
  | c :: cs =>
    match lastDotIdx cs with
    | some i => some (i + 1)
    | none => if c = '.' then some 0 else none

/-- `/^\d{4}-\d{2}-\d{2}$/.test(part)`: the date-part classifier of
`parseFilename` (src/src/services/filename-parser.ts). -/
def isDatePart (s : Str) : Bool :=
  match s with
  | [a, b, c, d, h1, e, f, h2, g, i] =>
    a.isDigit && b.isDigit && c.isDigit && d.isDigit && h1 = '-' &&
    e.isDigit && f.isDigit && h2 = '-' && g.isDigit && i.isDigit
  | _ => false

/-- The `foundStart` loop of `extractStemFromParts`: a part is pushed as soon
as some part so far had positive length and was not the literal `"_"`. -/
def stemPartsGo : Bool → List Str → List Str
  | _, [] => []
  | found, p :: ps =>
    let found' := found || (0 < p.length && p ≠ ['_'])
    if found' then p :: stemPartsGo found' ps else stemPartsGo found' ps

/-- Lines 499-502 of `extractStemFromParts`: drop empty and whitespace-only
parts, sanitize each survivor, and keep only the sanitized parts that are
non-empty, not `'unknown'` and valid path components. -/
def validPartsOf (parts : List Str) : List Str :=
  ((parts.filter (fun p => p ≠ [] && trimJs p ≠ [])).map sanitizeFilename).filter
    (fun p => p ≠ [] && p ≠ chars "unknown" && isValidS3PathComponent p)

/-- Lines 534-536 of `extractStemFromParts`: the final guard on the
sanitized joined stem (JavaScript truthiness of a string is non-emptiness). -/
def stemFinal (finalStemName : Str) : Str :=
  if finalStemName ≠ [] ∧ isValidS3PathComponent finalStemName then finalStemName
  else chars "unknown"

/-- `extractStemFromParts` of src/src/services/filename-parser.ts
(lines 493-537): filter, sanitize and re-validate the non-date parts, find
the first meaningful part, join on underscores, and fall back to
`'unknown'` when anything degenerates. -/
def extractStemFromParts (parts : List Str) : Str :=
  if parts = [] then chars "unknown"
  else
    let validParts := validPartsOf parts
    if validParts = [] then chars "unknown"
    else
      let stemParts :=
        match stemPartsGo false validParts with
        | [] => validParts
        | l => l
      stemFinal (sanitizeFilename ((stemParts.intersperse ['_']).flatten))

/-- `FilenameComponents` of src/src/types (part_000). -/
structure FilenameComponents where
  baseName : Str
  extension : Str
  dateParts : List Str
  nonDateParts : List Str
  stemName : Str
deriving DecidableEq, Repr

/-- The base name of `parseFilename` (lines 451-453): the part before the
last dot when the last dot's index is positive, otherwise the whole name. -/
def baseNameOf (sanitizedFilename : Str) : Str :=
  match lastDotIdx sanitizedFilename with
  | some i => if 0 < i then sanitizedFilename.take i else sanitizedFilename
  | none => sanitizedFilename

/-- The extension of `parseFilename` (line 454): from the last dot on, when
the last dot's index is positive. -/
def extensionOf (sanitizedFilename : Str) : Str :=
  match lastDotIdx sanitizedFilename with
  | some i => if 0 < i then sanitizedFilename.drop i else []
  | none => []

/-- Lines 457-476 of `parseFilename`: split the base name on underscores
and keep the non-date parts, empty parts as-is and the others sanitized. -/
def nonDatePartsOf (baseName : Str) : List Str :=
  ((splitOnChar '_' baseName).filter (fun p => !isDatePart p)).map
    (fun p => if p = [] then [] else sanitizeFilename p)

/-- `parseFilename` of src/src/services/filename-parser.ts (lines 443-488):
strip the directory, pre-sanitize, split off the extension at the last dot
(only when its index is positive), split on underscores, classify date
parts, re-sanitize the non-empty non-date parts, and extract the stem. -/
def parseFilename (filename : Str) : FilenameComponents :=
  let sanitizedFilename := sanitizeFilename (justFilenameOf filename)
  let baseName := baseNameOf sanitizedFilename
  let nonDateParts := nonDatePartsOf baseName
  { baseName := sanitizeFilename baseName
    extension := extensionOf sanitizedFilename
    dateParts := (splitOnChar '_' baseName).filter isDatePart
    nonDateParts := nonDateParts
    stemName := extractStemFromParts nonDateParts }

/-- `extractStemName` of src/src/services/filename-parser.ts (lines 417-438):
the guards for empty, whitespace-only and single-dot filenames, then the
stem of `parseFilename` (the function is total, so the `catch` arm of the
source never fires). -/
def extractStemName (filename : Str) : Str :=
  if filename = [] ∨ trimJs filename = [] then chars "unknown"
  else if trimJs filename = ['.'] then chars "unknown"
  else (parseFilename filename).stemName

/-! ## Zip processor (src/src/services/zip-processor.ts) -/

/-- A zip entry as surfaced by yauzl: name and the two sizes recorded in the
central directory. -/
structure Entry where
  fileName : Str
  uncompressedSize : Nat
  compressedSize : Nat
deriving DecidableEq, Repr

/-- `/\/$/.test(fileName)`: the directory test of `processZipEntry`. -/
def endsWithSlash (s : Str) : Bool := s.getLast? = some '/'

/-- The errors `processZipFileEntries` can push; the source pushes
interpolated message strings, abstracted here to one constructor per message
template, carrying the data the message interpolates. -/
inductive ZipError where
  | tooManyFiles
  | ratioExceeded (fileName : Str)
  | sizeLimitExceeded (fileName : Str)
  | memoryAbort
  | entryFailed (fileName : Str)
deriving DecidableEq, Repr

/-- `ProcessingResult` of src/src/types (part_000), with the abstracted
error values. -/
structure ProcessingResult where
  success : Bool
  filesProcessed : Nat
  errors : List ZipError
deriving DecidableEq, Repr

/-- `maxUncompressedSize` of `extractZipFile` (line 146): 200 MiB. -/
def maxUncompressedSize : Nat := 200 * 1024 * 1024

/-- `maxFileCount` of `extractZipFile` (line 147). -/
def maxFileCount : Nat := 10000

/-- `maxCompressionRatio` of `processZipFileEntries` (line 225); named with
a `Limit` suffix in this development. -/
def maxCompressionRatioLimit : Nat := 100

/-- The denominator of the compression-ratio test:
`entry.compressedSize || 1` (line 221). -/
def ratioDenominator (e : Entry) : Nat :=
  if e.compressedSize = 0 then 1 else e.compressedSize

/-- `compressionRatio > maxCompressionRatio` (line 227), as the equivalent
exact rational comparison `uncompressedSize / den > 100  ↔
uncompressedSize > 100 * den` (the source divides IEEE doubles; for the
integer sizes yauzl produces the two comparisons agree). -/
def ratioViolated (e : Entry) : Bool :=
  maxCompressionRatioLimit * ratioDenominator e < e.uncompressedSize

/-- The mutable state of one `processZipFileEntries` run.  `stopped` records
that the promise has been resolved (after which no further `entry` event is
requested); `admitted` is the ghost list of entries whose size was added to
the running total (line 260); `streamed` is the ghost list of entries for
which `processZipEntry` reached the upload (a read stream is opened). -/
structure LoopState where
  totalUncompressedSize : Nat
  filesProcessed : Nat
  errors : List ZipError
  success : Bool
  stopped : Bool
  admitted : List Entry
  streamed : List Entry
deriving DecidableEq, Repr

/-- Initial state of `extractZipFile` (lines 138-147). -/
def initLoopState : LoopState :=
  { totalUncompressedSize := 0, filesProcessed := 0, errors := [],
    success := true, stopped := false, admitted := [], streamed := [] }

/-- One `entry`-event handler execution of `processZipFileEntries`
(lines 202-301).  `memOk` is the outcome of the
`memoryMonitor.checkMemoryUsage('zip_entry_processing')` call for this
entry; `processOk` tells whether the `processZipEntry` call (stream open,
transform, upload) completed without throwing.  Directory entries and
zero-size entries return early from `processZipEntry` without touching any
stream, and the caller then increments `filesProcessed` (line 278). -/
def processEntryStep (st : LoopState) (x : Entry × Bool × Bool) : LoopState :=
  let e := x.1
  let memOk := x.2.1
  let processOk := x.2.2
  if st.stopped then st
  else if maxFileCount ≤ st.filesProcessed then
    { st with errors := st.errors ++ [.tooManyFiles], success := false, stopped := true }
  else if ratioViolated e then
    { st with errors := st.errors ++ [.ratioExceeded e.fileName], success := false,
              stopped := true }
  else if maxUncompressedSize < st.totalUncompressedSize + e.uncompressedSize then
    { st with errors := st.errors ++ [.sizeLimitExceeded e.fileName], success := false,
              stopped := true }
  else
    let st' := { st with
      totalUncompressedSize := st.totalUncompressedSize + e.uncompressedSize,
      admitted := st.admitted ++ [e] }
    if !memOk then
      { st' with errors := st'.errors ++ [.memoryAbort], success := false, stopped := true }
    else if endsWithSlash e.fileName || e.uncompressedSize = 0 then
      { st' with filesProcessed := st'.filesProcessed + 1 }
    else
      let st'' := { st' with streamed := st'.streamed ++ [e] }
      if processOk then { st'' with filesProcessed := st''.filesProcessed + 1 }
      else { st'' with errors := st''.errors ++ [.entryFailed e.fileName] }

/-- `processZipFileEntries` over a whole archive: the entries in
central-directory order, each paired with its memory-check and
process-success oracle values. -/
def processZipFileEntries (xs : List (Entry × Bool × Bool)) : LoopState :=
  xs.foldl processEntryStep initLoopState

/-- Sum of the `uncompressedSize` fields of a list of entries. -/
def sumUncompressed (es : List Entry) : Nat :=
  (es.map (·.uncompressedSize)).sum

/-- `extractZipFile` (lines 134-184) after a successful `open`: run the
entry loop, then apply the final success determination of lines 159-161. -/
def extractZipFile (xs : List (Entry × Bool × Bool)) : ProcessingResult :=
  let fin := processZipFileEntries xs
  let success :=
    if fin.filesProcessed = 0 ∧ fin.errors ≠ [] then false else fin.success
  { success := success, filesProcessed := fin.filesProcessed, errors := fin.errors }

/-! ## Memory monitor (src/unnamed/part_001, `MemoryMonitor`) -/

/-- `MemoryThresholds` of the memory monitor; usage percentages are exact
rationals standing for the source's floating-point
`heapUsed / heapTotal * 100`. -/
structure MemoryThresholds where
  warningThreshold : ℚ
  circuitBreakerThreshold : ℚ
deriving DecidableEq

/-- The default thresholds of the `MemoryMonitor` constructor. -/
def defaultThresholds : MemoryThresholds := ⟨70, 80⟩

/-- The monitor's mutable fields relevant to the circuit breaker. -/
structure MonitorState where
  tripped : Bool
  lastCheckTime : Nat
deriving DecidableEq, Repr

/-- Fresh monitor state (`circuitBreakerTripped = false`, `lastCheckTime = 0`). -/
def initMonitorState : MonitorState := ⟨false, 0⟩

/-- `CHECK_INTERVAL_MS` (line 147 of the monitor). -/
def checkIntervalMs : Nat := 1000

/-- `checkMemoryUsage` (lines 183-231): within the throttle interval return
the negated sticky flag without sampling; otherwise record the sample time,
trip and return false when usage is at or above the breaker threshold, and
return true otherwise (the warning branch only logs).  Returns the boolean
result together with the updated state. -/
def checkMemoryUsage (th : MemoryThresholds) (st : MonitorState) (now : Nat)
    (usagePercentage : ℚ) : Bool × MonitorState :=
  if now - st.lastCheckTime < checkIntervalMs then (!st.tripped, st)
  else
    let st' := { st with lastCheckTime := now }
    if th.circuitBreakerThreshold ≤ usagePercentage then
      (false, { st' with tripped := true })
    else (true, st')

/-- `resetCircuitBreaker` (lines 264-277): clear the flag only when the
freshly sampled usage is strictly below the warning threshold. -/
def resetCircuitBreaker (th : MemoryThresholds) (st : MonitorState)
    (usagePercentage : ℚ) : MonitorState :=
  if usagePercentage < th.warningThreshold then { st with tripped := false } else st

/-! ## Retry handler (src/src/utils/retry-handler.ts) -/

/-- A JavaScript `Error`'s fields used by `isRetryableError`. -/
structure JsError where
  name : Str
  message : Str
deriving DecidableEq, Repr

/-- `Error.prototype.toString()`: the message alone when the name is empty,
the name alone when the message is empty, otherwise
`name ++ ": " ++ message`. -/
def errorToString (e : JsError) : Str :=
  if e.name = [] then e.message
  else if e.message = [] then e.name
  else e.name ++ chars ": " ++ e.message

/-- JavaScript `String.prototype.includes`: substring containment. -/
def strIncludes (hay needle : Str) : Bool :=
  (List.range (hay.length + 1)).any (fun i => needle.isPrefixOf (hay.drop i))

/-- `isRetryableError` (lines 222-233): some configured retryable token is a
substring of the error's name, message or string form. -/
def isRetryableError (e : JsError) (retryableErrors : List Str) : Bool :=
  retryableErrors.any (fun r =>
    strIncludes e.name r || strIncludes e.message r || strIncludes (errorToString e) r)

/-- `DEFAULT_RETRYABLE_ERRORS` (lines 26-39). -/
def defaultRetryableErrors : List Str :=
  [chars "NetworkingError", chars "TimeoutError", chars "ThrottlingException",
   chars "ServiceUnavailable", chars "InternalServerError", chars "SlowDown",
   chars "RequestTimeout", chars "TooManyRequests", chars "Connection",
   chars "ECONNRESET", chars "ETIMEDOUT", chars "ENOTFOUND"]

/-- Result of `withRetry`: the value or the final wrapped error, together
with the number of times the operation was invoked. -/
inductive RetryResult (α : Type) where
  | ok (v : α) (calls : Nat)
  | failed (lastError : Option JsError) (calls : Nat)
deriving DecidableEq, Repr

/-- The `while (attempt < maxAttempts)` loop of `withRetry` (lines 70-138).
`fn n` is the outcome of the `n`-th invocation (timeouts are part of the
outcome); `attempt` is the count already performed and `fuel` is
`maxAttempts - attempt`, so the loop guard is `0 < fuel`.  A retryable
failure before the last attempt loops (the backoff delay has no semantic
effect); a non-retryable failure or the last attempt breaks, and every exit
of the loop other than success throws the final wrapped error. -/
def retryLoop (fn : Nat → Except JsError α) (retryableErrors : List Str)
    (maxAttempts : Nat) (lastError : Option JsError) :
    Nat → Nat → RetryResult α
  | _, 0 => .failed lastError maxAttempts
  | attempt, fuel + 1 =>
    let attempt' := attempt + 1
    match fn attempt' with
    | .ok v => .ok v attempt'
    | .error e =>
      if maxAttempts ≤ attempt' then .failed (some e) attempt'
      else if !isRetryableError e retryableErrors then .failed (some e) attempt'
      else retryLoop fn retryableErrors maxAttempts (some e) attempt' fuel

/-- `withRetry` (lines 53-155) for a given retryable-error set and attempt
budget. -/
def withRetry (fn : Nat → Except JsError α) (retryableErrors : List Str)
    (maxAttempts : Nat) : RetryResult α :=
  retryLoop fn retryableErrors maxAttempts none 0 maxAttempts

/-! ## CSV re-serialization (src/src/services/csv-processor.ts, part of
validation sources: `convertRowsToCSV`, lines 414-434) -/

/-- `replace(/"/g, '""')`: double every quote character of a cell. -/
def doubleQuotes (s : Str) : Str :=
  s.flatMap (fun c => if c = '"' then ['"', '"'] else [c])

/-- The per-cell serializer inside `convertRowsToCSV`: quote (and double
embedded quotes) exactly when the cell contains a comma, a quote, a line
feed or a carriage return; otherwise emit the cell verbatim. -/
def escapeCell (cell : Str) : Str :=
  if ',' ∈ cell ∨ '"' ∈ cell ∨ '\n' ∈ cell ∨ '\r' ∈ cell then
    '"' :: (doubleQuotes cell ++ ['"'])
  else cell

/-- `convertRowsToCSV`: cells joined by commas, rows joined by newlines. -/
def convertRowsToCSV (rows : List (List Str)) : Str :=
  (((rows.map (fun row => ((row.map escapeCell).intersperse [',']).flatten)).intersperse
    ['\n'])).flatten

/-- Spec-side characterization of "double embedded quotes": `QuotesDoubled s t`
holds when `t` is `s` with every quote character written twice and every
other character kept. -/
inductive QuotesDoubled : Str → Str → Prop where
  | nil : QuotesDoubled [] []
  | quote {s t : Str} : QuotesDoubled s t → QuotesDoubled ('"' :: s) ('"' :: '"' :: t)
  | char {s t : Str} (c : Char) : c ≠ '"' → QuotesDoubled s t →
      QuotesDoubled (c :: s) (c :: t)

/-! ## Lambda handler (src/src/handlers/s3-unzipper.ts) -/

/-- Outcome of one handler invocation: it either returns or throws. -/
inductive HandlerOutcome where
  | completed
  | raised
deriving DecidableEq, Repr

/-- The record loop of the handler (lines 61-98): each processed record
contributes one `ProcessingResult` (exceptions from `processS3Record` are
converted into a failed result by the inner catch), and the loop breaks
early when the remaining invocation time after a record drops below
30000 ms.  Returns the list of results actually accumulated. -/
def handlerLoop : List (ProcessingResult × Nat) → List ProcessingResult
  | [] => []
  | (r, remainingTime) :: rest =>
    r :: (if remainingTime < 30000 then [] else handlerLoop rest)

/-- The handler (lines 15-148): raise when the initial memory check fails or
the bucket name is unset; otherwise process the records and raise exactly
when `overallSuccess` is false, i.e. when some processed record's result has
`success = false` (lines 68-69 and 124-131). -/
def handlerRun (initialMemOk bucketNameSet : Bool)
    (records : List (ProcessingResult × Nat)) :
    HandlerOutcome × List ProcessingResult :=
  if !initialMemOk then (.raised, [])
  else if !bucketNameSet then (.raised, [])
  else
    let processed := handlerLoop records
    if processed.all (·.success) then (.completed, processed) else (.raised, processed)

/-! ## Stream buffering (src/unnamed/part_001, `streamToBuffer`) -/

/-- The errors `streamToBuffer` can throw. -/
inductive StreamError where
  | sizeExceeded
  | memoryAbort
deriving DecidableEq, Repr

/-- `DEFAULT` 50 MiB cap of `streamToBuffer` (line 14), also the cap in
effect for `uploadStream` (s3-service line 213) and `getObjectAsBuffer`
(s3-service line 88), both of which call `streamToBuffer` without a second
argument. -/
def defaultMaxSizeBytes : Nat := 50 * 1024 * 1024

/-- The `for await` loop of `streamToBuffer` (lines 19-38): add the chunk
length, throw when the running total exceeds the cap, consult the memory
monitor when the total is a multiple of 10 MiB or above 10 MiB (each
chunk's oracle value models that check's outcome), then append the chunk. -/
def streamToBufferGo (maxSizeBytes : Nat) :
    Nat → List Nat → List (List Nat × Bool) → Except StreamError (List Nat)
  | _, acc, [] => .ok acc
  | total, acc, (chunk, memOk) :: rest =>
    let total' := total + chunk.length
    if maxSizeBytes < total' then .error .sizeExceeded
    else if (total' % (10 * 1024 * 1024) = 0 ∨ 10 * 1024 * 1024 < total') ∧ memOk = false then
      .error .memoryAbort
    else streamToBufferGo maxSizeBytes total' (acc ++ chunk) rest

/-- `streamToBuffer` on a stream given as its list of chunks (bytes as
naturals), each paired with the memory-check oracle for its iteration. -/
def streamToBuffer (stream : List (List Nat × Bool)) (maxSizeBytes : Nat) :
    Except StreamError (List Nat) :=
  streamToBufferGo maxSizeBytes 0 [] stream

/-- The buffering step shared by `uploadStream` and `getObjectAsBuffer` of
src/src/services/s3-service.ts: both call `streamToBuffer` with the default
50 MiB cap. -/
def s3DefaultBuffering (stream : List (List Nat × Bool)) :
    Except StreamError (List Nat) :=
  streamToBuffer stream defaultMaxSizeBytes

/-- Total byte count of a chunked stream. -/
def sumChunkLengths (stream : List (List Nat × Bool)) : Nat :=
  (stream.map (·.1.length)).sum

/-- Whether an `Except` value is a success. -/
def exceptIsOk : Except StreamError (List Nat) → Bool
  | .ok _ => true
  | .error _ => false

/-! ## CSV processing and the upload dispatch
(src/src/services/csv-processor.ts `processCSVStream`/`detectHeaders`,
src/src/utils/file-upload-handler.ts `uploadFileFromZip`) -/

/-- `/^\d+(\.\d+)?$/.test`: a pure integer or decimal number
(csv-processor.ts line 382). -/
def isPureNumber (s : Str) : Bool :=
  let intPart := s.takeWhile Char.isDigit
  let rest := s.dropWhile Char.isDigit
  intPart ≠ [] &&
    (rest = [] ||
      (rest.head? = some '.' && rest.tail ≠ [] && rest.tail.all Char.isDigit))

/-- `/^\d{4}-\d{2}-\d{2}/.test`: an ISO-date prefix (line 384). -/
def hasIsoDatePrefix (s : Str) : Bool :=
  match s with
  | a :: b :: c :: d :: h1 :: e :: f :: h2 :: g :: i :: _ =>
    a.isDigit && b.isDigit && c.isDigit && d.isDigit && h1 = '-' &&
    e.isDigit && f.isDigit && h2 = '-' && g.isDigit && i.isDigit
  | _ => false

/-- Consume `\d{1,2}` followed by `'/'` at the front of a string. -/
def dropDigitsSlash : Str → Option Str
  | a :: '/' :: rest => if a.isDigit then some rest else none
  | a :: b :: '/' :: rest => if a.isDigit && b.isDigit then some rest else none
  | _ => none

/-- `/^\d{1,2}\/\d{1,2}\/\d{2,4}/.test`: a slash-date prefix (line 384). -/
def hasSlashDatePrefix (s : Str) : Bool :=
  match dropDigitsSlash s with
  | none => false
  | some r1 =>
    match dropDigitsSlash r1 with
    | none => false
    | some r2 =>
      match r2 with
      | a :: b :: _ => a.isDigit && b.isDigit
      | _ => false

/-- `/^https?:\/\//.test` (line 386). -/
def hasUrlScheme (s : Str) : Bool :=
  (chars "http://").isPrefixOf s || (chars "https://").isPrefixOf s

/-- The `[a-zA-Z0-9_\s-]` tail class of `hasTypicalHeaderChars` (line 387). -/
def isHeaderTailChar (c : Char) : Bool :=
  c.isAlphanum || c = '_' || isJsSpace c || c = '-'

/-- `/^[a-zA-Z][a-zA-Z0-9_\s-]*$/.test` (line 387). -/
def hasTypicalHeaderChars (s : Str) : Bool :=
  match s with
  | [] => false
  | c :: rest => c.isAlpha && rest.all isHeaderTailChar

/-- The closed set of `commonHeaderWords` (csv-processor.ts line 391). -/
def commonHeaderWords : List Str :=
  [chars "id", chars "name", chars "age", chars "email", chars "phone",
   chars "address", chars "city", chars "state", chars "country", chars "date",
   chars "time", chars "created", chars "updated", chars "status", chars "type",
   chars "category", chars "description", chars "title", chars "first",
   chars "last", chars "user", chars "customer", chars "order", chars "product",
   chars "price", chars "amount", chars "total", chars "count", chars "quantity",
   chars "_processed"]

/-- Case-insensitive membership in `commonHeaderWords` (the regex is
anchored and carries the `i` flag; the words themselves are lower-case). -/
def isCommonHeaderWord (s : Str) : Bool :=
  commonHeaderWords.any (fun w => s.map Char.toLower = w)

/-- The per-cell header test of `detectHeaders` (csv-processor.ts
lines 380-403), applied to a trimmed non-empty cell value. -/
def looksLikeHeader (s : Str) : Bool :=
  s.length < 50 && s.any Char.isAlpha && !isPureNumber s &&
  !hasIsoDatePrefix s && !hasSlashDatePrefix s && !(s.any (· = '@')) &&
  !hasUrlScheme s && (hasTypicalHeaderChars s || isCommonHeaderWord s)

/-- `detectHeaders` (csv-processor.ts lines 355-409): the first row is a
header row exactly when it has at least one non-empty trimmed cell and
every non-empty trimmed cell looks like a header. -/
def detectHeaders (firstRow : List Str) : Bool :=
  let nonEmpty := (firstRow.map trimJs).filter (fun v => v ≠ [])
  nonEmpty ≠ [] && nonEmpty.all looksLikeHeader

/-- `processCSVStream` (csv-processor.ts lines 220-349) at the row level.
The fast-csv library's parse outcome is an input: the parsed rows, or a
parse/stream error.  The `data` handler appends the configured timestamp
column name to a detected header row and the timestamp value to every other
row; the `end` handler returns `none` for an empty file, re-pushes the
timestamp onto any data row still one cell short of the header row
(lines 290-297), and re-serializes with `convertRowsToCSV`.  A parse error
yields `none` under the skip-malformed policy and propagates otherwise.
Note the function never consults any byte-size cap. -/
def processCSVStream (parsed : Except Unit (List (List Str)))
    (timestampColumn timestamp : Str) (skipMalformed : Bool) :
    Except Unit (Option Str) :=
  match parsed with
  | .error _ => if skipMalformed then .ok none else .error ()
  | .ok [] => .ok none
  | .ok (first :: rest) =>
    let hasHeaders := detectHeaders first
    let first' := first ++ [if hasHeaders then timestampColumn else timestamp]
    let rest' := rest.map (fun row => row ++ [timestamp])
    let rest'' :=
      if hasHeaders then
        rest'.map (fun row =>
          if row.length = first'.length - 1 then row ++ [timestamp] else row)
      else rest'
    .ok (some (convertRowsToCSV (first' :: rest'')))

/-- Which S3 call finally carried an entry's bytes in the
`uploadFileFromZip` dispatch, or the failure that stopped it. -/
inductive UploadOutcome where
  | uploadedBuffer (bytes : Str)
  | uploadedStream (bytes : List Nat)
  | failed (e : StreamError)
deriving DecidableEq, Repr

/-- `handleDirectUpload` / `uploadOriginalFileAsFallback` both call
`uploadStream` (s3-service.ts lines 185-258), whose buffering step is the
default-cap `streamToBuffer`. -/
def uploadViaStream (entryChunks : List (List Nat × Bool)) : UploadOutcome :=
  match s3DefaultBuffering entryChunks with
  | .ok bytes => .uploadedStream bytes
  | .error e => .failed e

/-- `uploadFileFromZip` (file-upload-handler.ts lines 29-41) with
`handleCSVUpload` (lines 46-93): a CSV entry with processing enabled is
parsed and, when processing yields a buffer, uploaded through
`uploadBuffer` (s3-service.ts lines 263-307), whose only guard is a memory
checkpoint (`bufferMemOk`) — `streamToBuffer` and its 50 MiB cap are never
on that path.  A `none` result or a thrown processing error falls back to
`uploadStream` on a fresh stream, and a non-CSV entry goes to
`uploadStream` directly; both of those buffer the entry's chunks under the
default cap.  The entry itself only identifies the streams being opened. -/
def uploadFileFromZip (_entry : Entry) (isCSV csvProcessingEnabled : Bool)
    (parsed : Except Unit (List (List Str))) (timestampColumn timestamp : Str)
    (skipMalformed bufferMemOk : Bool)
    (entryChunks : List (List Nat × Bool)) : UploadOutcome :=
  if isCSV && csvProcessingEnabled then
    match processCSVStream parsed timestampColumn timestamp skipMalformed with
    | .ok (some buf) =>
      if bufferMemOk then .uploadedBuffer buf else .failed .memoryAbort
    | .ok none => uploadViaStream entryChunks
    | .error _ => uploadViaStream entryChunks
  else uploadViaStream entryChunks

/-! ## Helper lemmas -/

theorem mem_of_mem_dropWhile {p : Char → Bool} :
    ∀ {s : Str} {c : Char}, c ∈ s.dropWhile p → c ∈ s := by
  intro s
  induction s with
  | nil => intro c h; simp at h
  | cons x xs ih =>
    intro c h
    by_cases hx : p x
    · rw [List.dropWhile_cons_of_pos hx] at h
      exact List.mem_cons_of_mem _ (ih h)
    · rwa [List.dropWhile_cons_of_neg hx] at h

theorem mem_of_mem_trimUnderscores {s : Str} {c : Char}
    (h : c ∈ trimUnderscores s) : c ∈ s := by
  unfold trimUnderscores at h
  rw [List.mem_reverse] at h
  have h2 := mem_of_mem_dropWhile h
  rw [List.mem_reverse] at h2
  exact mem_of_mem_dropWhile h2

theorem mem_replaceDotDot :
    ∀ (s : Str) (c : Char), c ∈ replaceDotDot s → c = '_' ∨ c ∈ s
  | [], c, h => by simp [replaceDotDot] at h
  | [a], c, h => by rw [replaceDotDot] at h; exact Or.inr h
  | a :: b :: cs, c, h => by
    rw [replaceDotDot] at h
    by_cases hab : a = '.' ∧ b = '.'
    · rw [if_pos hab] at h
      rcases List.mem_cons.mp h with h1 | h1
      · exact Or.inl h1
      · rcases mem_replaceDotDot cs c h1 with h2 | h2
        · exact Or.inl h2
        · exact Or.inr (List.mem_cons_of_mem _ (List.mem_cons_of_mem _ h2))
    · rw [if_neg hab] at h
      rcases List.mem_cons.mp h with h1 | h1
      · exact Or.inr (h1 ▸ List.mem_cons_self _ _)
      · rcases mem_replaceDotDot (b :: cs) c h1 with h2 | h2
        · exact Or.inl h2
        · exact Or.inr (List.mem_cons_of_mem _ h2)

theorem mem_collapseWsAux :
    ∀ (b : Bool) (s : Str) (c : Char), c ∈ collapseWsAux b s → c = '_' ∨ c ∈ s
  | _, [], c, h => by simp [collapseWsAux] at h
  | b, x :: xs, c, h => by
    rw [collapseWsAux] at h
    by_cases hx : isJsSpace x = true
    · rw [if_pos hx] at h
      cases b with
      | true =>
        simp only [if_pos rfl] at h
        rcases mem_collapseWsAux true xs c h with h2 | h2
        · exact Or.inl h2
        · exact Or.inr (List.mem_cons_of_mem _ h2)
      | false =>
        simp only [Bool.false_eq_true, if_neg] at h
        rcases List.mem_cons.mp h with h1 | h1
        · exact Or.inl h1
        · rcases mem_collapseWsAux true xs c h1 with h2 | h2
          · exact Or.inl h2
          · exact Or.inr (List.mem_cons_of_mem _ h2)
    · rw [if_neg hx] at h
      rcases List.mem_cons.mp h with h1 | h1
      · exact Or.inr (h1 ▸ List.mem_cons_self _ _)
      · rcases mem_collapseWsAux false xs c h1 with h2 | h2
        · exact Or.inl h2
        · exact Or.inr (List.mem_cons_of_mem _ h2)

theorem mem_emitUnderscoreRun {n : Nat} {c : Char}
    (h : c ∈ emitUnderscoreRun n) : c = '_' :=
  List.eq_of_mem_replicate h

theorem mem_squeezeUnderscoresAux :
    ∀ (n : Nat) (s : Str) (c : Char), c ∈ squeezeUnderscoresAux n s → c = '_' ∨ c ∈ s
  | n, [], c, h => by
    rw [squeezeUnderscoresAux] at h
    exact Or.inl (mem_emitUnderscoreRun h)
  | n, x :: xs, c, h => by
    rw [squeezeUnderscoresAux] at h
    by_cases hx : x = '_'
    · rw [if_pos hx] at h
      rcases mem_squeezeUnderscoresAux (n + 1) xs c h with h2 | h2
      · exact Or.inl h2
      · exact Or.inr (List.mem_cons_of_mem _ h2)
    · rw [if_neg hx] at h
      rcases List.mem_append.mp h with h1 | h1
      · exact Or.inl (mem_emitUnderscoreRun h1)
      · rcases List.mem_cons.mp h1 with h2 | h2
        · exact Or.inr (h2 ▸ List.mem_cons_self _ _)
        · rcases mem_squeezeUnderscoresAux 0 xs c h2 with h3 | h3
          · exact Or.inl h3
          · exact Or.inr (List.mem_cons_of_mem _ h3)

theorem noCtrl_unknown : ∀ c ∈ chars "unknown", isCtrlChar c = false := by decide

-- Every character of `sanitizeSteps s` is outside the control-character
-- class: the first replace maps every control character to an underscore and
-- each later stage only keeps input characters or inserts underscores.
theorem noCtrl_sanitizeSteps (s : Str) :
    ∀ c ∈ sanitizeSteps s, isCtrlChar c = false := by
  intro d hd
  unfold sanitizeSteps at hd
  have h6 := mem_of_mem_trimUnderscores hd
  rcases mem_squeezeUnderscoresAux 0 _ d h6 with h5 | h5
  · subst h5; decide
  rcases mem_collapseWsAux false _ d h5 with h4 | h4
  · subst h4; decide
  have h3 := mem_of_mem_dropWhile h4
  rcases mem_replaceDotDot _ d h3 with h2 | h2
  · subst h2; decide
  rw [List.mem_map] at h2
  obtain ⟨a, ha, hda⟩ := h2
  by_cases hra : isReservedChar a = true
  · rw [if_pos hra] at hda; subst hda; decide
  rw [if_neg hra] at hda
  subst hda
  rw [List.mem_map] at ha
  obtain ⟨b, _, hab⟩ := ha
  by_cases hcb : isCtrlChar b = true
  · rw [if_pos hcb] at hab; subst hab; decide
  · rw [if_neg hcb] at hab; subst hab
    exact Bool.eq_false_iff.mpr hcb

theorem noCtrl_sanitizeFilename (s : Str) :
    ∀ c ∈ sanitizeFilename s, isCtrlChar c = false := by
  intro c hc
  unfold sanitizeFilename at hc
  by_cases h0 : s = [] ∨ trimJs s = []
  · rw [if_pos h0] at hc
    exact noCtrl_unknown c hc
  · rw [if_neg h0] at hc
    unfold sanitizeTruncate at hc
    have hsub : ∀ d ∈ sanitizeFallback (sanitizeSteps s), isCtrlChar d = false := by
      intro d hd
      unfold sanitizeFallback at hd
      by_cases h7 : sanitizeSteps s = [] ∨ sanitizeSteps s = ['.']
      · rw [if_pos h7] at hd
        exact noCtrl_unknown d hd
      · rw [if_neg h7] at hd
        exact noCtrl_sanitizeSteps s d hd
    by_cases hlen : 100 < (sanitizeFallback (sanitizeSteps s)).length
    · rw [if_pos hlen] at hc
      exact hsub c ((List.take_sublist _ _).subset hc)
    · rw [if_neg hlen] at hc
      exact hsub c hc

theorem sanitizeFallback_ne_nil (s : Str) : sanitizeFallback s ≠ [] := by
  unfold sanitizeFallback
  by_cases h : s = [] ∨ s = ['.']
  · rw [if_pos h]; decide
  · rw [if_neg h]
    intro hnil
    exact h (Or.inl hnil)

theorem sanitizeTruncate_ne_nil {s : Str} (h : s ≠ []) : sanitizeTruncate s ≠ [] := by
  unfold sanitizeTruncate
  by_cases hlen : 100 < s.length
  · rw [if_pos hlen]
    intro hnil
    have hl := congrArg List.length hnil
    rw [List.length_take] at hl
    simp only [List.length_nil] at hl
    omega
  · rwa [if_neg hlen]

theorem sanitizeFilename_ne_nil (s : Str) : sanitizeFilename s ≠ [] := by
  unfold sanitizeFilename
  by_cases h0 : s = [] ∨ trimJs s = []
  · rw [if_pos h0]; decide
  · rw [if_neg h0]
    exact sanitizeTruncate_ne_nil (sanitizeFallback_ne_nil _)

theorem stemFinal_ne_nil (s : Str) : stemFinal s ≠ [] := by
  unfold stemFinal
  by_cases h : s ≠ [] ∧ isValidS3PathComponent s = true
  · rw [if_pos h]; exact h.1
  · rw [if_neg h]; decide

theorem extractStemFromParts_ne_nil (ps : List Str) : extractStemFromParts ps ≠ [] := by
  unfold extractStemFromParts
  by_cases h0 : ps = []
  · rw [if_pos h0]; decide
  · rw [if_neg h0]
    by_cases h1 : validPartsOf ps = []
    · simp only [h1, if_pos]; decide
    · simp only [h1, if_neg, reduceIte]
      exact stemFinal_ne_nil _

theorem noCtrl_stemFinal_sanitize (t : Str) :
    ∀ c ∈ stemFinal (sanitizeFilename t), isCtrlChar c = false := by
  intro c hc
  unfold stemFinal at hc
  by_cases h : sanitizeFilename t ≠ [] ∧ isValidS3PathComponent (sanitizeFilename t) = true
  · rw [if_pos h] at hc
    exact noCtrl_sanitizeFilename t c hc
  · rw [if_neg h] at hc
    exact noCtrl_unknown c hc

theorem noCtrl_extractStemFromParts (ps : List Str) :
    ∀ c ∈ extractStemFromParts ps, isCtrlChar c = false := by
  intro c hc
  unfold extractStemFromParts at hc
  by_cases h0 : ps = []
  · rw [if_pos h0] at hc
    exact noCtrl_unknown c hc
  · rw [if_neg h0] at hc
    by_cases h1 : validPartsOf ps = []
    · simp only [h1, if_pos] at hc
      exact noCtrl_unknown c hc
    · simp only [h1, if_neg, reduceIte] at hc
      exact noCtrl_stemFinal_sanitize _ c hc

-- Once the entry loop has resolved its promise it stops asking for entries:
-- a stopped state absorbs every further step.
theorem processEntryStep_stopped (st : LoopState) (x : Entry × Bool × Bool)
    (h : st.stopped = true) : processEntryStep st x = st := by
  simp only [processEntryStep, h, if_pos]

theorem processEntryStep_total_le (st : LoopState) (x : Entry × Bool × Bool) :
    st.totalUncompressedSize ≤ (processEntryStep st x).totalUncompressedSize := by
  simp only [processEntryStep]
  split_ifs <;> simp

theorem foldl_total_le (xs : List (Entry × Bool × Bool)) :
    ∀ st : LoopState,
      st.totalUncompressedSize ≤ (xs.foldl processEntryStep st).totalUncompressedSize := by
  induction xs with
  | nil => intro st; exact le_refl _
  | cons x xs ih =>
    intro st
    exact le_trans (processEntryStep_total_le st x) (ih _)

theorem sumUncompressed_append (l : List Entry) (e : Entry) :
    sumUncompressed (l ++ [e]) = sumUncompressed l + e.uncompressedSize := by
  simp [sumUncompressed]

-- The step preserves "the running total is the sum of the admitted sizes and
-- stays within the cap": sizes are only added behind the guard of line 244.
theorem processEntryStep_size_inv (st : LoopState) (x : Entry × Bool × Bool)
    (h1 : st.totalUncompressedSize = sumUncompressed st.admitted)
    (h2 : st.totalUncompressedSize ≤ maxUncompressedSize) :
    (processEntryStep st x).totalUncompressedSize
        = sumUncompressed (processEntryStep st x).admitted
    ∧ (processEntryStep st x).totalUncompressedSize ≤ maxUncompressedSize := by
  simp only [processEntryStep]
  split_ifs with hs hc hr hsz hm hd hp <;>
    simp_all [sumUncompressed_append]

theorem foldl_size_inv (xs : List (Entry × Bool × Bool)) :
    ∀ st : LoopState,
      st.totalUncompressedSize = sumUncompressed st.admitted →
      st.totalUncompressedSize ≤ maxUncompressedSize →
      (xs.foldl processEntryStep st).totalUncompressedSize
          = sumUncompressed (xs.foldl processEntryStep st).admitted
      ∧ (xs.foldl processEntryStep st).totalUncompressedSize ≤ maxUncompressedSize := by
  induction xs with
  | nil => intro st h1 h2; exact ⟨h1, h2⟩
  | cons x xs ih =>
    intro st h1 h2
    obtain ⟨h1', h2'⟩ := processEntryStep_size_inv st x h1 h2
    exact ih _ h1' h2'

-- The step preserves "no entry with a violating compression ratio has been
-- handed to the uploader": an entry only joins `streamed` after the ratio
-- guard of line 227 passed.
theorem processEntryStep_streamed_inv (st : LoopState) (x : Entry × Bool × Bool)
    (h : ∀ e ∈ st.streamed, ratioViolated e = false) :
    ∀ e ∈ (processEntryStep st x).streamed, ratioViolated e = false := by
  intro e he
  simp only [processEntryStep] at he
  split_ifs at he with hs hc hr hsz hm hd hp <;>
    first
      | exact h e he
      | (simp only [] at he
         rcases List.mem_append.mp he with h1 | h1
         · exact h e h1
         · rw [List.mem_singleton] at h1
           subst h1
           exact Bool.eq_false_iff.mpr hr)

theorem foldl_streamed_inv (xs : List (Entry × Bool × Bool)) :
    ∀ st : LoopState,
      (∀ e ∈ st.streamed, ratioViolated e = false) →
      ∀ e ∈ (xs.foldl processEntryStep st).streamed, ratioViolated e = false := by
  induction xs with
  | nil => intro st h; exact h
  | cons x xs ih =>
    intro st h
    exact ih _ (processEntryStep_streamed_inv st x h)

/-! ## Claim theorems -/

/-- Claim C1: over any archive, the running decompression total equals the
sum of the admitted entries' uncompressed sizes, never exceeds the 200 MiB
`maxUncompressedSize`, and is monotonically non-decreasing along the run;
and when an entry would push the total over the limit (after the earlier
guards), the step appends exactly one error, sets `success` to false and
stops the archive without adding the size. -/
theorem C1_cumulative_size_invariant (xs : List (Entry × Bool × Bool)) :
    (processZipFileEntries xs).totalUncompressedSize
        = sumUncompressed (processZipFileEntries xs).admitted
    ∧ (processZipFileEntries xs).totalUncompressedSize ≤ maxUncompressedSize
    ∧ (∀ p r, xs = p ++ r →
        (processZipFileEntries p).totalUncompressedSize
          ≤ (processZipFileEntries xs).totalUncompressedSize)
    ∧ (∀ (st : LoopState) (e : Entry) (memOk processOk : Bool),
        st.stopped = false → st.filesProcessed < maxFileCount →
        ratioViolated e = false →
        maxUncompressedSize < st.totalUncompressedSize + e.uncompressedSize →
        processEntryStep st (e, memOk, processOk)
          = { st with errors := st.errors ++ [ZipError.sizeLimitExceeded e.fileName],
                      success := false, stopped := true }) := by
  obtain ⟨h1, h2⟩ := foldl_size_inv xs initLoopState rfl (by decide)
  refine ⟨h1, h2, ?_, ?_⟩
  · intro p r hpr
    subst hpr
    unfold processZipFileEntries
    rw [List.foldl_append]
    exact foldl_total_le r _
  · intro st e memOk processOk hstop hcount hratio hsize
    simp [processEntryStep, hstop, hratio, Nat.not_le.mpr hcount, hsize]

/-- Claim C2: no entry whose uncompressed-to-compressed ratio (with
denominator `compressedSize || 1`) exceeds the 100:1 limit ever has a read
stream opened for it; when such an entry is reached (before the file-count
limit), the step appends exactly one error, sets `success` to false and
stops; and a stopped run processes no later entry. -/
theorem C2_compression_ratio_abort (xs : List (Entry × Bool × Bool)) :
    (∀ e ∈ (processZipFileEntries xs).streamed, ratioViolated e = false)
    ∧ (∀ (st : LoopState) (e : Entry) (memOk processOk : Bool),
        st.stopped = false → st.filesProcessed < maxFileCount →
        ratioViolated e = true →
        processEntryStep st (e, memOk, processOk)
          = { st with errors := st.errors ++ [ZipError.ratioExceeded e.fileName],
                      success := false, stopped := true })
    ∧ (∀ (st : LoopState) (x : Entry × Bool × Bool), st.stopped = true →
        processEntryStep st x = st) := by
  refine ⟨foldl_streamed_inv xs initLoopState (by intro e he; simp [initLoopState] at he), ?_, ?_⟩
  · intro st e memOk processOk hstop hcount hratio
    simp [processEntryStep, hstop, Nat.not_le.mpr hcount, hratio]
  · exact processEntryStep_stopped

/-- Claim C4 (the spec is the intent, the code slips): an archive whose only
entry is the directory `"docs/"` is "skipped" by `processZipEntry`, opens no
stream and records no error, yet the caller still increments
`filesProcessed` (zip-processor.ts line 278), so the result reports one
processed file where the spec requires zero. -/
theorem C4_directory_counted_in_filesProcessed :
    extractZipFile [(⟨chars "docs/", 0, 0⟩, true, true)]
        = { success := true, filesProcessed := 1, errors := [] }
    ∧ (processZipFileEntries [(⟨chars "docs/", 0, 0⟩, true, true)]).streamed = []
    ∧ (processZipFileEntries [(⟨chars "docs/", 0, 0⟩, true, true)]).errors = [] := by
  decide

/-- Witness for C1 at a concrete state and entry: a 1-byte entry arriving
with the total already at the cap triggers the size guard. -/
theorem C1_cumulative_size_invariant_witness :
    processEntryStep ⟨maxUncompressedSize, 0, [], true, false, [], []⟩
        (⟨chars "big.bin", 1, 1⟩, true, true)
      = { totalUncompressedSize := maxUncompressedSize, filesProcessed := 0,
          errors := [ZipError.sizeLimitExceeded (chars "big.bin")], success := false,
          stopped := true, admitted := [], streamed := [] } := by
  have h := (C1_cumulative_size_invariant []).2.2.2
    ⟨maxUncompressedSize, 0, [], true, false, [], []⟩ ⟨chars "big.bin", 1, 1⟩
    true true rfl (by decide) (by decide) (by decide)
  simpa using h

/-- Witness for C2 at a concrete state and entry: a 5000-byte entry with a
10-byte compressed size violates the 100:1 limit, and a stopped state is
absorbing. -/
theorem C2_compression_ratio_abort_witness :
    processEntryStep ⟨0, 0, [], true, false, [], []⟩
        (⟨chars "bomb.bin", 5000, 10⟩, true, true)
      = { totalUncompressedSize := 0, filesProcessed := 0,
          errors := [ZipError.ratioExceeded (chars "bomb.bin")], success := false,
          stopped := true, admitted := [], streamed := [] }
    ∧ processEntryStep ⟨0, 0, [], false, true, [], []⟩ (⟨chars "x", 1, 1⟩, true, true)
        = ⟨0, 0, [], false, true, [], []⟩ := by
  constructor
  · have h := (C2_compression_ratio_abort []).2.1
      ⟨0, 0, [], true, false, [], []⟩ ⟨chars "bomb.bin", 5000, 10⟩
      true true rfl (by decide) (by decide)
    simpa using h
  · exact (C2_compression_ratio_abort []).2.2 _ _ rfl

/-- Claim C3 counterexample: trip the breaker at t = 1000 sampling 85 %
usage, then a call at t = 2500 sampling 50 % returns true although the
sticky flag is still set and `resetCircuitBreaker` was never invoked — so
"every subsequent call returns false until reset" fails on the code. -/
theorem C3_counterexample :
    (checkMemoryUsage defaultThresholds initMonitorState 1000 85).1 = false
    ∧ (checkMemoryUsage defaultThresholds initMonitorState 1000 85).2.tripped = true
    ∧ (checkMemoryUsage defaultThresholds
        (checkMemoryUsage defaultThresholds initMonitorState 1000 85).2 2500 50).1 = true
    ∧ (checkMemoryUsage defaultThresholds
        (checkMemoryUsage defaultThresholds initMonitorState 1000 85).2 2500 50).2.tripped
        = true := by
  decide

/-- Claim C3 amended: for every state, time and usage sample,
`checkMemoryUsage` returns false exactly when the call is throttled (inside
the 1 s interval) with the sticky flag set, or unthrottled with the fresh
sample at or above the trip threshold — so an unthrottled call whose sample
is below the trip threshold returns true even while the flag is set, and a
tripped monitor returns false only inside the throttle interval.  The flag
is set by `checkMemoryUsage` exactly on an unthrottled at-or-above-threshold
sample and never cleared by it; only `resetCircuitBreaker` clears it, and
only when the fresh sample is below the warning threshold. -/
theorem C3_throttled_circuit_breaker (th : MemoryThresholds) (st : MonitorState)
    (now : Nat) (u : ℚ) :
    ((checkMemoryUsage th st now u).1 = false ↔
       ((now - st.lastCheckTime < checkIntervalMs ∧ st.tripped = true) ∨
        (checkIntervalMs ≤ now - st.lastCheckTime ∧ th.circuitBreakerThreshold ≤ u)))
    ∧ ((checkMemoryUsage th st now u).2.tripped = true ↔
        (st.tripped = true ∨
          (checkIntervalMs ≤ now - st.lastCheckTime ∧ th.circuitBreakerThreshold ≤ u)))
    ∧ (u < th.warningThreshold → (resetCircuitBreaker th st u).tripped = false)
    ∧ (th.warningThreshold ≤ u → resetCircuitBreaker th st u = st) := by
  refine ⟨?_, ?_, ?_, ?_⟩
  · by_cases hth : now - st.lastCheckTime < checkIntervalMs
    · simp [checkMemoryUsage, hth, Nat.not_le_of_lt hth]
    · by_cases hu : th.circuitBreakerThreshold ≤ u
      · simp [checkMemoryUsage, hth, hu, Nat.le_of_not_lt hth]
      · simp [checkMemoryUsage, hth, hu]
  · by_cases hth : now - st.lastCheckTime < checkIntervalMs
    · simp [checkMemoryUsage, hth, Nat.not_le_of_lt hth]
    · by_cases hu : th.circuitBreakerThreshold ≤ u
      · simp [checkMemoryUsage, hth, hu, Nat.le_of_not_lt hth]
      · simp [checkMemoryUsage, hth, hu]
  · intro hu
    simp [resetCircuitBreaker, hu]
  · intro hu
    simp [resetCircuitBreaker, not_lt.mpr hu]

/-- Witness for the amended C3 at concrete states: a throttled call on a
tripped monitor returns false; an unthrottled call on a tripped monitor
sampling 50 % returns true; reset clears the flag at 50 % usage and is
refused at 75 %. -/
theorem C3_throttled_circuit_breaker_witness :
    (checkMemoryUsage defaultThresholds ⟨true, 2000⟩ 2500 10).1 = false
    ∧ (checkMemoryUsage defaultThresholds ⟨true, 0⟩ 2000 50).1 = true
    ∧ (resetCircuitBreaker defaultThresholds ⟨true, 0⟩ 50).tripped = false
    ∧ resetCircuitBreaker defaultThresholds ⟨true, 0⟩ 75 = ⟨true, 0⟩ := by
  refine ⟨?_, ?_, ?_, ?_⟩
  · exact (C3_throttled_circuit_breaker defaultThresholds ⟨true, 2000⟩ 2500 10).1.mpr
      (Or.inl ⟨by decide, rfl⟩)
  · have h := (C3_throttled_circuit_breaker defaultThresholds ⟨true, 0⟩ 2000 50).1
    cases hb : (checkMemoryUsage defaultThresholds ⟨true, 0⟩ 2000 50).1 with
    | false => exact absurd (h.mp hb) (by decide)
    | true => rfl
  · exact (C3_throttled_circuit_breaker defaultThresholds ⟨true, 0⟩ 0 50).2.2.1 (by decide)
  · exact (C3_throttled_circuit_breaker defaultThresholds ⟨true, 0⟩ 0 75).2.2.2 (by decide)

/-- Claim C5: the stem extractor returns exactly the spec's four example
outputs. -/
theorem C5_stem_examples :
    extractStemName (chars "2026-01-01__2026-01-02_app_registration_report.csv")
        = chars "app_registration_report"
    ∧ extractStemName (chars "2026-01-01_badge.csv") = chars "badge"
    ∧ extractStemName (chars "user_report_2026-01-01.txt") = chars "user_report"
    ∧ extractStemName (chars "2026-01-01__2026-01-02.csv") = chars "unknown" := by
  decide

/-- Claim C6 counterexample: `extractStemName "abc/"` keeps the trailing
path separator (`split('/').pop()` is falsy for a name ending in a slash,
so the whole name is used, and no later stage strips `'/'`); and
`extractStemName` is not idempotent: `"a_.2026-01-01.csv"` maps to
`"a_2026-01-01"` (the leading-dot strip turns `".2026-01-01"` into a date
string), which a second application reduces to `"a"`. -/
theorem C6_counterexample :
    '/' ∈ extractStemName (chars "abc/")
    ∧ extractStemName (extractStemName (chars "a_.2026-01-01.csv"))
        ≠ extractStemName (chars "a_.2026-01-01.csv") := by
  decide

/-- Claim C6 amended: `extractStemName` is total and for every string input
returns a non-empty string free of control characters; it is not idempotent
and its output can contain path separators. -/
theorem C6_total_nonempty_no_control (s : Str) :
    extractStemName s ≠ []
    ∧ (extractStemName s).all (fun c => !isCtrlChar c) = true := by
  constructor
  · unfold extractStemName
    by_cases h0 : s = [] ∨ trimJs s = []
    · rw [if_pos h0]; decide
    · rw [if_neg h0]
      by_cases h1 : trimJs s = ['.']
      · rw [if_pos h1]; decide
      · rw [if_neg h1]
        exact extractStemFromParts_ne_nil _
  · rw [List.all_eq_true]
    intro c hc
    rw [Bool.not_eq_true']
    revert hc
    unfold extractStemName
    by_cases h0 : s = [] ∨ trimJs s = []
    · rw [if_pos h0]; exact noCtrl_unknown c
    · rw [if_neg h0]
      by_cases h1 : trimJs s = ['.']
      · rw [if_pos h1]; exact noCtrl_unknown c
      · rw [if_neg h1]
        exact noCtrl_extractStemFromParts _ c

/-- Witness for the amended C6 at a concrete input. -/
theorem C6_total_nonempty_no_control_witness :
    extractStemName (chars "x.csv") ≠ []
    ∧ (extractStemName (chars "x.csv")).all (fun c => !isCtrlChar c) = true :=
  C6_total_nonempty_no_control (chars "x.csv")

/-- Claim C7: with at least three attempts allowed, an operation that fails
retryably on attempts 1 and 2 and succeeds on attempt 3 returns the success
value after exactly 3 invocations; an operation whose first failure is not
retryable is invoked exactly once and the call throws. -/
theorem C7_retry_invocation_counts {α : Type} (maxAttempts : Nat) (res : List Str)
    (hmax : 3 ≤ maxAttempts) :
    (∀ (fn : Nat → Except JsError α) (v : α) (e1 e2 : JsError),
       fn 1 = .error e1 → fn 2 = .error e2 → fn 3 = .ok v →
       isRetryableError e1 res = true → isRetryableError e2 res = true →
       withRetry fn res maxAttempts = .ok v 3)
    ∧ (∀ (fn : Nat → Except JsError α) (e : JsError),
       fn 1 = .error e → isRetryableError e res = false →
       withRetry fn res maxAttempts = .failed (some e) 1) := by
  obtain ⟨k, rfl⟩ : ∃ k, maxAttempts = k + 3 := ⟨maxAttempts - 3, by omega⟩
  have s1 : ¬ (k + 3 ≤ 1) := by omega
  have s2 : ¬ (k + 3 ≤ 2) := by omega
  constructor
  · intro fn v e1 e2 h1 h2 h3 hr1 hr2
    show retryLoop fn res (k + 3) none 0 (k + 2 + 1) = .ok v 3
    simp only [retryLoop, Nat.zero_add]
    rw [h1]
    simp only [s1, if_false, hr1, Bool.not_true, Bool.false_eq_true]
    show retryLoop fn res (k + 3) (some e1) 1 (k + 1 + 1) = .ok v 3
    simp only [retryLoop, Nat.reduceAdd]
    rw [h2]
    simp only [s2, if_false, hr2, Bool.not_true, Bool.false_eq_true]
    show retryLoop fn res (k + 3) (some e2) 2 (k + 0 + 1) = .ok v 3
    simp only [retryLoop, Nat.reduceAdd]
    rw [h3]
  · intro fn e h1 hr
    show retryLoop fn res (k + 3) none 0 (k + 2 + 1) = .failed (some e) 1
    simp only [retryLoop, Nat.zero_add]
    rw [h1]
    simp only [s1, if_false, hr, Bool.not_false]
    simp

/-- Witness for C7 with the default retryable set and `maxAttempts = 3`:
two timeouts then success yields the value after 3 calls; a first
non-retryable validation error fails after 1 call. -/
theorem C7_retry_invocation_counts_witness :
    withRetry
        (fun n => if n = 3 then .ok 42 else .error ⟨chars "TimeoutError", chars "t"⟩)
        defaultRetryableErrors 3
      = RetryResult.ok 42 3
    ∧ withRetry
        (fun _ => (.error ⟨chars "ValidationError", chars "bad"⟩ : Except JsError Nat))
        defaultRetryableErrors 3
      = RetryResult.failed (some ⟨chars "ValidationError", chars "bad"⟩) 1 :=
  ⟨(C7_retry_invocation_counts 3 defaultRetryableErrors (by decide)).1
     (fun n => if n = 3 then .ok 42 else .error ⟨chars "TimeoutError", chars "t"⟩)
     42 ⟨chars "TimeoutError", chars "t"⟩ ⟨chars "TimeoutError", chars "t"⟩
     rfl rfl rfl (by decide) (by decide),
   (C7_retry_invocation_counts 3 defaultRetryableErrors (by decide)).2
     (fun _ => .error ⟨chars "ValidationError", chars "bad"⟩)
     ⟨chars "ValidationError", chars "bad"⟩ rfl (by decide)⟩

-- The code's `replace(/"/g, '""')` realizes the spec's quote-doubling
-- relation.
theorem quotesDoubled_doubleQuotes (s : Str) : QuotesDoubled s (doubleQuotes s) := by
  induction s with
  | nil => exact .nil
  | cons c cs ih =>
    by_cases hc : c = '"'
    · subst hc
      simpa [doubleQuotes] using QuotesDoubled.quote ih
    · simpa [doubleQuotes, hc] using QuotesDoubled.char c hc ih

/-- Claim C8: a serialized cell is quoted (with every embedded quote
doubled, per the `QuotesDoubled` relation) exactly when it contains a
comma, a quote character, or a newline character (line feed or carriage
return, the two line-break characters the source tests); any other cell is
emitted verbatim; and `convertRowsToCSV` serializes each cell this way. -/
theorem C8_csv_quoting (cell : Str) :
    ((',' ∈ cell ∨ '"' ∈ cell ∨ '\n' ∈ cell ∨ '\r' ∈ cell) →
       ∃ d, QuotesDoubled cell d ∧ escapeCell cell = '"' :: (d ++ ['"']))
    ∧ (¬(',' ∈ cell ∨ '"' ∈ cell ∨ '\n' ∈ cell ∨ '\r' ∈ cell) →
       escapeCell cell = cell)
    ∧ convertRowsToCSV [[cell]] = escapeCell cell := by
  refine ⟨?_, ?_, ?_⟩
  · intro h
    exact ⟨doubleQuotes cell, quotesDoubled_doubleQuotes cell, by simp [escapeCell, h]⟩
  · intro h
    simp [escapeCell, h]
  · simp [convertRowsToCSV]

/-- Witness for C8 at concrete cells: `"a,b"` is quoted with its quotes
doubled, `"ab"` passes through verbatim. -/
theorem C8_csv_quoting_witness :
    (∃ d, QuotesDoubled (chars "a,b") d
        ∧ escapeCell (chars "a,b") = '"' :: (d ++ ['"']))
    ∧ escapeCell (chars "ab") = chars "ab" :=
  ⟨(C8_csv_quoting (chars "a,b")).1 (by decide),
   (C8_csv_quoting (chars "ab")).2.1 (by decide)⟩

/-- Claim C9 counterexample: a batch whose first archive succeeds and whose
second fails makes the handler raise (lines 68-69 set `overallSuccess`
false on any failed record and lines 124-131 then throw), although at least
one archive's result has `success = true` — so "completes whenever at least
one archive succeeded" fails on the code. -/
theorem C9_counterexample :
    (handlerRun true true
        [({ success := true, filesProcessed := 1, errors := [] }, 1000000),
         ({ success := false, filesProcessed := 0, errors := [ZipError.memoryAbort] },
          1000000)]).1
      = HandlerOutcome.raised
    ∧ ((handlerRun true true
        [({ success := true, filesProcessed := 1, errors := [] }, 1000000),
         ({ success := false, filesProcessed := 0, errors := [ZipError.memoryAbort] },
          1000000)]).2.any (·.success)) = true := by
  decide

/-- Claim C9 amended: with the initial memory check passing and the bucket
name configured, the handler completes (rather than raising) exactly when
every processed record's result has `success = true`; any processed failure
makes the whole invocation raise. -/
theorem C9_raises_iff_any_failure (records : List (ProcessingResult × Nat)) :
    (handlerRun true true records).1 = HandlerOutcome.completed
      ↔ ∀ r ∈ (handlerRun true true records).2, r.success = true := by
  by_cases hall : (handlerLoop records).all (·.success) = true
  · simp only [handlerRun, Bool.not_true, Bool.false_eq_true, if_neg, hall, if_pos]
    exact ⟨fun _ => fun r hr => List.all_eq_true.mp hall r hr, fun _ => rfl⟩
  · simp only [handlerRun, Bool.not_true, Bool.false_eq_true, if_neg, hall, if_false]
    constructor
    · intro h
      exact absurd h (by simp)
    · intro h
      exact absurd (List.all_eq_true.mpr fun r hr => h r hr) hall

/-- Witness for the amended C9: a single successful record completes. -/
theorem C9_raises_iff_any_failure_witness :
    (handlerRun true true
        [({ success := true, filesProcessed := 1, errors := [] }, 40000)]).1
      = HandlerOutcome.completed :=
  (C9_raises_iff_any_failure
      [({ success := true, filesProcessed := 1, errors := [] }, 40000)]).mpr
    (by decide)

theorem streamToBufferGo_ok_le (max : Nat) :
    ∀ (xs : List (List Nat × Bool)) (total : Nat) (acc : List Nat) (buf : List Nat),
      acc.length = total → total ≤ max →
      streamToBufferGo max total acc xs = .ok buf → buf.length ≤ max
  | [], total, acc, buf, hlen, hle, h => by
    rw [streamToBufferGo] at h
    cases h
    omega
  | (chunk, memOk) :: rest, total, acc, buf, hlen, hle, h => by
    rw [streamToBufferGo] at h
    by_cases h1 : max < total + chunk.length
    · rw [if_pos h1] at h
      exact absurd h (by simp)
    · rw [if_neg h1] at h
      by_cases h2 : ((total + chunk.length) % (10 * 1024 * 1024) = 0
          ∨ 10 * 1024 * 1024 < total + chunk.length) ∧ memOk = false
      · rw [if_pos h2] at h
        exact absurd h (by simp)
      · rw [if_neg h2] at h
        exact streamToBufferGo_ok_le max rest (total + chunk.length) (acc ++ chunk) buf
          (by simp [hlen]) (Nat.le_of_not_lt h1) h

theorem streamToBufferGo_exceeds (max : Nat) :
    ∀ (xs : List (List Nat × Bool)) (total : Nat) (acc : List Nat),
      total ≤ max → max < total + sumChunkLengths xs →
      exceptIsOk (streamToBufferGo max total acc xs) = false
  | [], total, acc, hle, hgt => by
    simp [sumChunkLengths] at hgt
    omega
  | (chunk, memOk) :: rest, total, acc, hle, hgt => by
    rw [streamToBufferGo]
    by_cases h1 : max < total + chunk.length
    · rw [if_pos h1]; rfl
    · rw [if_neg h1]
      by_cases h2 : ((total + chunk.length) % (10 * 1024 * 1024) = 0
          ∨ 10 * 1024 * 1024 < total + chunk.length) ∧ memOk = false
      · rw [if_pos h2]; rfl
      · rw [if_neg h2]
        apply streamToBufferGo_exceeds max rest (total + chunk.length) (acc ++ chunk)
          (Nat.le_of_not_lt h1)
        simp only [sumChunkLengths, List.map_cons, List.sum_cons] at hgt ⊢
        omega

/-- Claim C10 counterexample: a 60 MiB CSV entry (compressed 1 MiB) passes
every zip guard, and with CSV processing enabled its bytes travel
`handleCSVUpload → processCSVStream → uploadBuffer`
(file-upload-handler.ts lines 36-37 and 61-65, s3-service.ts lines 263-307)
— a path on which `streamToBuffer` and its 50 MiB default cap are never
invoked — so the upload succeeds although the entry is larger than 50 MiB,
refuting "any single entry or object larger than 50 MiB always fails".
(The parsed rows stand for the entry's content; the raw chunk stream is
only read on the non-CSV and fallback paths.) -/
theorem C10_counterexample :
    ratioViolated ⟨chars "big.csv", 62914560, 1048576⟩ = false
    ∧ defaultMaxSizeBytes < 62914560
    ∧ (processZipFileEntries [(⟨chars "big.csv", 62914560, 1048576⟩, true, true)]).errors
        = []
    ∧ (processZipFileEntries
        [(⟨chars "big.csv", 62914560, 1048576⟩, true, true)]).filesProcessed = 1
    ∧ uploadFileFromZip ⟨chars "big.csv", 62914560, 1048576⟩ true true
        (.ok [[chars "name", chars "age"], [chars "John", chars "25"]])
        (chars "_processed") (chars "2026-01-01T00:00:00.000Z") true true []
      = .uploadedBuffer
          (chars "name,age,_processed\nJohn,25,2026-01-01T00:00:00.000Z") := by
  decide

/-- Claim C10 amended: `streamToBuffer` never resolves with a buffer longer
than its cap, and a stream whose total size exceeds the cap always fails —
so every object routed through the shared default-cap buffering of
`uploadStream` and `getObjectAsBuffer` (the zip download, non-CSV entry
uploads, CSV fallback uploads) fails beyond 50 MiB.  But not every entry is
so routed: a CSV entry with processing enabled whose parse succeeds with at
least one row is uploaded through `uploadBuffer`, with no size cap
consulted, whatever its chunk stream holds — so a single entry larger than
50 MiB can succeed on that path. -/
theorem C10_stream_buffer_cap (stream : List (List Nat × Bool)) (maxSizeBytes : Nat) :
    (∀ buf, streamToBuffer stream maxSizeBytes = .ok buf → buf.length ≤ maxSizeBytes)
    ∧ (maxSizeBytes < sumChunkLengths stream →
        exceptIsOk (streamToBuffer stream maxSizeBytes) = false)
    ∧ (defaultMaxSizeBytes < sumChunkLengths stream →
        exceptIsOk (s3DefaultBuffering stream) = false)
    ∧ (∀ (entry : Entry) (first : List Str) (rest : List (List Str))
         (timestampColumn timestamp : Str) (skipMalformed : Bool),
        ∃ buf,
          uploadFileFromZip entry true true (.ok (first :: rest))
              timestampColumn timestamp skipMalformed true stream
            = UploadOutcome.uploadedBuffer buf) := by
  refine ⟨?_, ?_, ?_, ?_⟩
  · intro buf h
    exact streamToBufferGo_ok_le maxSizeBytes stream 0 [] buf rfl (Nat.zero_le _) h
  · intro h
    exact streamToBufferGo_exceeds maxSizeBytes stream 0 [] (Nat.zero_le _) (by simpa using h)
  · intro h
    exact streamToBufferGo_exceeds defaultMaxSizeBytes stream 0 [] (Nat.zero_le _)
      (by simpa using h)
  · intro entry first rest timestampColumn timestamp skipMalformed
    exact ⟨_, rfl⟩

/-- Witness for the amended C10: a 3-byte stream under a 10-byte cap stays
within the cap; a single chunk one byte over 50 MiB makes the default-cap
buffering fail; and a one-row CSV is uploaded through the buffer path over
that same oversized stream. -/
theorem C10_stream_buffer_cap_witness :
    (([1, 2, 3] : List Nat).length ≤ 10)
    ∧ exceptIsOk
        (s3DefaultBuffering [(List.replicate (defaultMaxSizeBytes + 1) 0, true)])
        = false
    ∧ (∃ buf,
        uploadFileFromZip ⟨chars "a.csv", 1, 1⟩ true true (.ok [[chars "x"]])
            (chars "_processed") (chars "t") true true
            [(List.replicate (defaultMaxSizeBytes + 1) 0, true)]
          = UploadOutcome.uploadedBuffer buf) :=
  ⟨(C10_stream_buffer_cap [([1, 2, 3], true)] 10).1 [1, 2, 3] (by rfl),
   (C10_stream_buffer_cap [(List.replicate (defaultMaxSizeBytes + 1) 0, true)]
      defaultMaxSizeBytes).2.2.1
     (by simp [sumChunkLengths]),
   (C10_stream_buffer_cap [(List.replicate (defaultMaxSizeBytes + 1) 0, true)]
      defaultMaxSizeBytes).2.2.2 ⟨chars "a.csv", 1, 1⟩ [chars "x"] []
     (chars "_processed") (chars "t") true⟩

end S3Unzipper

